import Mathlib

/-!
Verification of the hfjobs command-line client against its specification.

The development shallowly embeds the Python sources under src/hfjobs/:

* src/hfjobs/commands/run.py   : job submission and the log/status monitor loop
* src/hfjobs/commands/uv.py    : uv script repository management (README table
  update, dependency and description extraction, repository resolution,
  last-repository pointer)
* src/hfjobs/commands/scripts.py : scripts init/push (shares the extractor and
  pointer logic with uv.py)
* src/hfjobs/cli.py            : the dispatcher

Machine strings are Lean String values; Python character indices are modelled
on the underlying List Char (Python indexes code points, as List Char does).
External collaborators (the HTTP platform, the filesystem, json.loads on
well-formed server-sent-event lines) are modelled as explicit parameters, as
described at each definition.
-/

/-! ### Generic helpers shared by the embeddings -/

/-- Substring containment on character lists: some suffix of the text starts
with the pattern.  It embeds the Python operator of the form
pattern in text used throughout uv.py and scripts.py. -/
def listContainsSub (s pat : List Char) : Bool :=
  s.tails.any (fun t => pat.isPrefixOf t)

/-- Python pattern in text on strings. -/
def strContains (s pat : String) : Bool :=
  listContainsSub s.data pat.data

/-- Python text.startswith(pre), as a code-point prefix test. -/
def strStartsWith (s pre : String) : Bool :=
  pre.data.isPrefixOf s.data

/-- Python text.strip(): drop leading and trailing whitespace.  (Python
strips a slightly larger class of whitespace code points; the difference is
immaterial to the texts involved here.) -/
def pyStrip (s : String) : String :=
  (((s.data.dropWhile Char.isWhitespace).reverse.dropWhile Char.isWhitespace).reverse).asString

/-- Splitting a character list on a separator character; the Python
semantics of text.split(sep) for a one-character separator. -/
def splitCharsOn (c : Char) : List Char → List (List Char)
  | [] => [[]]
  | a :: t =>
    if a = c then [] :: splitCharsOn c t
    else
      match splitCharsOn c t with
      | h :: r => (a :: h) :: r
      | [] => [[a]]

/-- Python text.split(sep) for a one-character separator, on strings. -/
def pySplit (s : String) (c : Char) : List String :=
  (splitCharsOn c s.data).map List.asString

/-- Python text.find(pat): index of the first occurrence, none for -1. -/
def charsFind (s pat : List Char) : Option Nat :=
  match s with
  | [] => if pat.isPrefixOf ([] : List Char) then some 0 else none
  | c :: t =>
    if pat.isPrefixOf (c :: t) then some 0
    else (charsFind t pat).map (fun n => n + 1)

/-- Index of the last occurrence of a character, none when absent. -/
def lastIndexOf : List Char → Char → Option Nat
  | [], _ => none
  | c :: t, ch =>
    match lastIndexOf t ch with
    | some j => some (j + 1)
    | none => if c = ch then some 0 else none

/-- Python text.rfind(ch, 0, stop): last occurrence of ch strictly before
index stop, none for -1. -/
def charsRFindBefore (s : List Char) (ch : Char) (stop : Nat) : Option Nat :=
  lastIndexOf (s.take stop) ch

/-- A Python slice endpoint: negative indices count from the end and clamp
at zero. -/
def pyIdxNat (len : Nat) (i : Int) : Nat :=
  if i < 0 then ((len : Int) + i).toNat else i.toNat

/-- Python text[:i] on character lists, with Python index conventions. -/
def pyTake (s : List Char) (i : Int) : List Char :=
  s.take (pyIdxNat s.length i)

/-- Python text[i:] on character lists, with Python index conventions. -/
def pyDrop (s : List Char) (i : Int) : List Char :=
  s.drop (pyIdxNat s.length i)

/-- The first match of the Python regular expression for a nonempty
double-quoted string: the leftmost double quote that is followed by at least
one non-quote character and a closing quote; returns the quoted content. -/
def firstQuoted : List Char → Option (List Char)
  | [] => none
  | c :: rest =>
    if c = '"' then
      if (rest.dropWhile (fun x => x ≠ '"') ≠ []) ∧ (rest.takeWhile (fun x => x ≠ '"') ≠ []) then
        some (rest.takeWhile (fun x => x ≠ '"'))
      else firstQuoted rest
    else firstQuoted rest

/-! ### run.py : job monitor loop (RunCommand.run, lines 82-110)

The platform log stream delivers server-sent-event style lines.  A line of
the stream is either a structured event, rendered on the wire as the text
data: followed by a JSON object whose data field carries the log text, or a
raw line (a blank keep-alive line or any other line that does not start with
the event prefix).  Decoding of the JSON object of a structured line is the
job of the external json.loads and is part of the wire format, so the event
constructor carries the decoded data field directly. -/

inductive StreamLine where
  | event (data : String)
  | raw (text : String)
deriving DecidableEq

/-- The synthetic first line the platform emits when a job starts; run.py
line 98 skips event lines whose data field starts with this marker. -/
def jobStartedMarker : String := "===== Job started"

/-- State of one pass over the log stream: the lines printed so far and the
Python variable log (the last real log line printed, None before any). -/
structure PassOut where
  printed : List String
  lastLog : Option String
deriving DecidableEq

/-- One line of the for-loop of run.py lines 93-100: a structured event
whose data does not carry the Job-started marker is printed and recorded in
log; every other line is skipped. -/
def passStep (st : PassOut) (l : StreamLine) : PassOut :=
  match l with
  | .event d =>
    if strStartsWith d jobStartedMarker then st
    else ⟨st.printed ++ [d], some d⟩
  | .raw _ => st

/-- One full pass over a log stream, starting from log = None. -/
def streamPass (lines : List StreamLine) : PassOut :=
  lines.foldl passStep ⟨[], none⟩

/-- The status document returned by the job status endpoint: either it has
no status key, or it has a stage and an optional error field.  run.py
line 108 reads only the stage; the error field is carried to show it is
never consulted. -/
inductive StatusResponse where
  | noStatus
  | withStatus (stage : String) (error : Option String)
deriving DecidableEq

/-- run.py line 108: the job is finished when the response has a status key
whose stage is not RUNNING and not UPDATING. -/
def statusFinished : StatusResponse → Bool
  | .noStatus => false
  | .withStatus stage _ => !(stage = "RUNNING" || stage = "UPDATING")

/-- The stage of a status response, forgetting the error field. -/
def stageOf : StatusResponse → Option String
  | .noStatus => none
  | .withStatus stage _ => some stage

/-- The remote platform as observed by the monitor: the content of the nth
log-stream request and the response to the nth status request. -/
structure Platform where
  streams : Nat → List StreamLine
  statuses : Nat → StatusResponse

/-- Observable outcome of the monitor: everything printed, the number of
stream passes, the number of one-unit sleeps, and the process exit status. -/
structure MonitorResult where
  printed : List String
  passes : Nat
  sleeps : Nat
  exitCode : Nat
deriving DecidableEq

/-- The while-loop of run.py lines 86-110, with fuel for the unbounded
iteration.  Each iteration opens the stream (pass number i), prints its real
log lines, and breaks when logging_finished or job_finished holds; otherwise
it queries the status, marks the job finished when the stage is terminal,
sleeps one unit and loops.  When the loop breaks, run returns normally and
the process exits with status 0: run.py never prints a failure message and
never calls sys.exit. -/
def monitorLoop (p : Platform) :
    Nat → Nat → Bool → Bool → List String → Nat → Option MonitorResult
  | 0, _, _, _, _, _ => none
  | fuel + 1, i, loggingFinished, jobFinished, printedSoFar, sleeps =>
    let pass := streamPass (p.streams i)
    let lf := loggingFinished || pass.lastLog.isSome
    let printed := printedSoFar ++ pass.printed
    if lf || jobFinished then some ⟨printed, i + 1, sleeps, 0⟩
    else
      monitorLoop p fuel (i + 1) lf (statusFinished (p.statuses i)) printed (sleeps + 1)

/-- The foreground monitor of RunCommand.run (run.py lines 82-110). -/
def runMonitor (p : Platform) (fuel : Nat) : Option MonitorResult :=
  monitorLoop p fuel 0 false false [] 0

/-- run.py line 41: one --env argument split at its first equals sign.
Python evaluates x.split with a maxsplit of one and indexes entry one,
which raises IndexError when the argument has no equals sign; the failure
is modelled as none. -/
def splitFirstEq (x : String) : Option (String × String) :=
  if x.data.contains '=' then
    some ((x.data.takeWhile (fun c => c ≠ '=')).asString,
          ((x.data.dropWhile (fun c => c ≠ '=')).tail).asString)
  else none

/-- RunCommand construction, run.py lines 40-43: the environment built from
the repeated --env arguments, none when any argument makes the construction
raise. -/
def buildEnvironment : List String → Option (List (String × String))
  | [] => some []
  | x :: xs => (splitFirstEq x).bind (fun p => (buildEnvironment xs).map (fun e => p :: e))

/-! ### uv.py / scripts.py : script metadata extraction -/

/-- The dependency-block scanner of uv.py lines 762-778 (scripts.py lines
386-402 is textually identical).  It walks the lines of the script: a line
containing the text dependencies = [ switches the scanner on and is itself
skipped; while the scanner is on, a line containing a closing bracket stops
everything, and otherwise the first nonempty double-quoted string of the
line, when present, is collected. -/
def extractDepsGo : List String → Bool → List String
  | [], _ => []
  | line :: rest, inDeps =>
    if strContains line "dependencies = [" then extractDepsGo rest true
    else if inDeps then
      if strContains line "]" then []
      else
        match firstQuoted line.data with
        | some pkg => pkg.asString :: extractDepsGo rest true
        | none => extractDepsGo rest true
    else extractDepsGo rest false

/-- UvCommand._extract_dependencies (uv.py lines 762-778): scan the lines of
the script content. -/
def extract_dependencies (script : String) : List String :=
  extractDepsGo (pySplit script '\n') false

/-- The three-double-quote delimiter of a Python docstring. -/
def tripleQuote : List Char := ['"', '"', '"']

/-- The first match of the non-greedy dotall regular expression for a
triple-quoted block: content between the leftmost opening delimiter and the
next closing delimiter after it. -/
def firstTripleQuoted (cs : List Char) : Option (List Char) :=
  match charsFind cs tripleQuote with
  | none => none
  | some i =>
    match charsFind (cs.drop (i + 3)) tripleQuote with
    | none => none
    | some j => some ((cs.drop (i + 3)).take j)

/-- UvCommand._extract_description (uv.py lines 780-792, identical in
scripts.py): the first nonblank line, stripped, of the stripped content of
the first docstring; none when there is no docstring or all its lines are
blank.  String.trim models the Python strip of whitespace. -/
def extract_description (script : String) : Option String :=
  match firstTripleQuoted script.data with
  | none => none
  | some content =>
    (pySplit (pyStrip content.asString) '\n').findSome?
      (fun l => if pyStrip l = "" then none else some (pyStrip l))

/-! ### uv.py : README generation and the marker-delimited table update -/

/-- Start marker of the auto-generated table (uv.py line 678). -/
def startMarker : String := "<!-- AUTO-GENERATED SCRIPTS LIST - DO NOT EDIT MANUALLY -->"

/-- End marker of the auto-generated table (uv.py line 679). -/
def endMarker : String := "<!-- END AUTO-GENERATED SCRIPTS LIST -->"

/-- The presence token checked at uv.py line 673 before any insertion. -/
def rowMarker (scriptName : String) : String := "| [" ++ scriptName ++ "]"

/-- One table row for a script (uv.py line 693 and line 609 of the
template); repoName is the final path segment of the repository id. -/
def scriptRow (scriptName description repoName : String) : String :=
  "| [" ++ scriptName ++ "](./blob/main/" ++ scriptName ++ ") | " ++ description ++
    " | `hfjobs uv run " ++ scriptName ++ " --repo " ++ repoName ++ "` |"

/-- The part of the README template of uv.py lines 585-608 that precedes the
script row. -/
def readmeBeforeRow (repoName : String) : String :=
  "---\ntags:\n- hfjobs-uv-script\n- uv\n- python\nviewer: false\n---\n\n# " ++
    repoName ++
    "\n\nA collection of UV scripts for hfjobs.\n\n## Usage\n\nRun any script using:\n```bash\nhfjobs uv run <script_name> --repo " ++
    repoName ++ "\n```\n\n## Scripts\n\n" ++ startMarker ++
    "\n| Script | Description | Command |\n|--------|-------------|---------|\n"

/-- The part of the README template of uv.py lines 610-618 that follows the
script row, beginning with the newline before the end marker. -/
def readmeAfterRow : String :=
  "\n" ++ endMarker ++
    "\n\n## Learn More\n\nLearn more about UV scripts in the [UV documentation](https://docs.astral.sh/uv/guides/scripts/).\n\n---\n*Created with [hfjobs](https://github.com/huggingface/hfjobs)*\n"

/-- UvCommand._create_readme (uv.py lines 580-620): the full template
render, with the description defaulting to UV script and the repository
name being the last slash-separated segment of the repository id. -/
def create_readme (repoId scriptName scriptContent : String) : String :=
  readmeBeforeRow ((pySplit repoId '/').getLastD "") ++
    scriptRow scriptName ((extract_description scriptContent).getD "UV script")
      ((pySplit repoId '/').getLastD "") ++
    readmeAfterRow

/-- UvCommand._update_readme_with_script (uv.py lines 668-702).  When the
row token for the script is already present the document is returned
unchanged; otherwise, when both markers are found, the new row is spliced in
before the last newline preceding the end marker (the source also computes a
table_start value that it never uses); when a marker is missing the whole
document is regenerated from the template.  Finds are Python str.find with
-1 for absence; the slice indices follow Python conventions. -/
def update_readme_with_script (repoId scriptName scriptContent existing : String) : String :=
  if strContains existing (rowMarker scriptName) then existing
  else
    match charsFind existing.data startMarker.data, charsFind existing.data endMarker.data with
    | some _, some endIdx =>
      (pyTake existing.data (match charsRFindBefore existing.data '\n' endIdx with
          | some j => (j : Int)
          | none => -1)).asString ++ "\n" ++
        scriptRow scriptName ((extract_description scriptContent).getD "UV script")
          ((pySplit repoId '/').getLastD "") ++
        (pyDrop existing.data (match charsRFindBefore existing.data '\n' endIdx with
          | some j => (j : Int)
          | none => -1)).asString
    | _, _ => create_readme repoId scriptName scriptContent

/-! ### uv.py / scripts.py : repository resolution and the pointer store -/

/-- The shared resolution step (uv.py lines 826-829 and 131-135, scripts.py
lines 81-85): an id with a slash is kept, otherwise the resolved caller name
is prefixed. -/
def resolveRepoArg (repoArg username : String) : String :=
  if strContains repoArg "/" then repoArg else username ++ "/" ++ repoArg

/-- UvCommand._determine_repository (uv.py lines 809-840).  configContent is
the text of the local .hfjobs/config file when it exists; a line of it
starting with repo= yields the text after the first equals sign.  argsRepo
is the --repo argument; Python truthiness makes an empty string fall
through.  When nothing applies, the ephemeral name (built outside the model
from the clock, the caller and a content hash) is used. -/
def determine_repository (configContent argsRepo : Option String)
    (username ephemeralName : String) : String :=
  match configContent.bind (fun content =>
      (pySplit content '\n').findSome? (fun l =>
        if strStartsWith l "repo=" then some (l.drop 5) else none)) with
  | some r => r
  | none =>
    match argsRepo with
    | some r => if r = "" then ephemeralName else resolveRepoArg r username
    | none => ephemeralName

/-- UvCommand._save_last_repo (uv.py lines 794-800, identical in
scripts.py): write_text replaces the whole content of the pointer file,
modelled as the optional content of that file. -/
def save_last_repo (_store : Option String) (repoId : String) : Option String :=
  some repoId

/-- UvCommand._get_last_repo (uv.py lines 802-807, identical in scripts.py):
the stripped content of the pointer file when it exists. -/
def get_last_repo (store : Option String) : Option String :=
  store.map (fun s => pyStrip s)

/-! ### cli.py : the dispatcher -/

/-- Outcome of one CLI invocation at the dispatch level. -/
inductive DispatchOutcome where
  | handled (cmd : String)
  | usageExit (code : Nat)
  | parserRejected
deriving DecidableEq

/-- The subcommands cli.py lines 12-13 register: PsCommand (whose module is
not under src/; its subcommand name ps is taken from the spec, section 4.5)
and RunCommand (run, run.py line 17).  No other command is registered. -/
def registeredSubcommands : List String := ["ps", "run"]

/-- cli.py lines 16-23: a parse with no subcommand leaves args without a
func attribute, so the help text is printed and the process exits with
status 1; a registered subcommand is dispatched to the run entry point of
its handler; any other token is rejected by the argument parsing library
before main regains control. -/
def dispatch : Option String → DispatchOutcome
  | none => .usageExit 1
  | some c => if registeredSubcommands.contains c then .handled c else .parserRejected

/-! ### Spec-side definition and concrete platforms used by the claims -/

/-- The printing rule in the words of the specification (section 4.2): the
data field of each structured event line is printed, except for keepalive
Job-started markers; non-structured lines are never printed.  This is the
claim-side description, compared with the source-side streamPass. -/
def specPrintedLine : StreamLine → Option String
  | .event d => if strStartsWith d jobStartedMarker then none else some d
  | .raw _ => none

/-- A stub platform whose stream only ever carries the Job-started marker
and a blank keepalive line, and whose status is the terminal stage ERROR
with the error field OOM. -/
def oomPlatform : Platform :=
  ⟨fun _ => [.event "===== Job started", .raw ""], fun _ => .withStatus "ERROR" (some "OOM")⟩

/-- A stub platform with no log lines whose status is the terminal stage
COMPLETED. -/
def completedPlatform : Platform :=
  ⟨fun _ => [], fun _ => .withStatus "COMPLETED" none⟩

/-- A stub platform whose first stream pass is empty and whose later passes
carry one real log line, with a terminal status from the start. -/
def lateLogPlatform : Platform :=
  ⟨fun i => if i = 0 then [] else [.event "hello"], fun _ => .withStatus "COMPLETED" none⟩

/-- A stub platform whose first stream pass is empty and whose status stays
RUNNING. -/
def runningPlatform : Platform :=
  ⟨fun _ => [], fun _ => .withStatus "RUNNING" none⟩

/-! ### Helper lemmas -/

theorem asString_data (l : List Char) : (List.asString l).data = l := rfl

theorem listContainsSub_iff {s pat : List Char} :
    listContainsSub s pat = true ↔ pat <:+: s := by
  simp [listContainsSub, List.any_eq_true, List.mem_tails,
    List.infix_iff_prefix_suffix, and_comm]

theorem strContains_of_infix {s pat : String} (h : pat.data <:+: s.data) :
    strContains s pat = true := by
  rw [strContains, listContainsSub_iff]
  exact h

theorem foldl_passStep_printed (ls : List StreamLine) (st : PassOut) :
    (ls.foldl passStep st).printed = st.printed ++ ls.filterMap specPrintedLine := by
  induction ls generalizing st with
  | nil => simp
  | cons l ls ih =>
    rw [List.foldl_cons, ih]
    cases l with
    | event d =>
      by_cases hd : strStartsWith d jobStartedMarker = true
      · simp [passStep, specPrintedLine, hd]
      · simp only [Bool.not_eq_true] at hd
        simp [passStep, specPrintedLine, hd]
    | raw t => simp [passStep, specPrintedLine]

theorem foldl_passStep_inv (ls : List StreamLine) (st : PassOut)
    (h : st.lastLog = none ↔ st.printed = []) :
    (ls.foldl passStep st).lastLog = none ↔ (ls.foldl passStep st).printed = [] := by
  induction ls generalizing st with
  | nil => simpa using h
  | cons l ls ih =>
    rw [List.foldl_cons]
    apply ih
    cases l with
    | event d =>
      by_cases hd : strStartsWith d jobStartedMarker = true
      · simpa [passStep, hd] using h
      · simp only [Bool.not_eq_true] at hd
        simp [passStep, hd]
    | raw t => simpa [passStep] using h

theorem streamPass_lastLog_none_iff (ls : List StreamLine) :
    (streamPass ls).lastLog = none ↔ (streamPass ls).printed = [] :=
  foldl_passStep_inv ls ⟨[], none⟩ (by simp)

theorem statusFinished_congr {a b : StatusResponse} (h : stageOf a = stageOf b) :
    statusFinished a = statusFinished b := by
  cases a <;> cases b <;> simp_all [stageOf, statusFinished]

theorem monitorLoop_exit (fuel : Nat) :
    ∀ (p : Platform) (i : Nat) (lf jf : Bool) (acc : List String) (sl : Nat)
      (r : MonitorResult), monitorLoop p fuel i lf jf acc sl = some r →
      r.exitCode = 0 ∧
        ∀ s ∈ r.printed, s ∈ acc ∨ ∃ k, s ∈ (streamPass (p.streams k)).printed := by
  induction fuel with
  | zero => intro p i lf jf acc sl r h; simp [monitorLoop] at h
  | succ n ih =>
    intro p i lf jf acc sl r h
    rw [monitorLoop] at h
    by_cases hc : ((lf || (streamPass (p.streams i)).lastLog.isSome) || jf) = true
    · rw [if_pos hc] at h
      obtain rfl : (⟨acc ++ (streamPass (p.streams i)).printed, i + 1, sl, 0⟩ :
          MonitorResult) = r := Option.some.inj h
      refine ⟨rfl, ?_⟩
      intro s hs
      rcases List.mem_append.mp hs with h1 | h2
      · exact Or.inl h1
      · exact Or.inr ⟨i, h2⟩
    · rw [if_neg hc] at h
      obtain ⟨h0, hmem⟩ := ih p (i + 1) _ _ _ _ r h
      refine ⟨h0, ?_⟩
      intro s hs
      rcases hmem s hs with h1 | h2
      · rcases List.mem_append.mp h1 with ha | hb
        · exact Or.inl ha
        · exact Or.inr ⟨i, hb⟩
      · exact Or.inr h2

theorem monitorLoop_congr (fuel : Nat) :
    ∀ (p q : Platform), p.streams = q.streams →
      (∀ i, stageOf (p.statuses i) = stageOf (q.statuses i)) →
      ∀ (i : Nat) (lf jf : Bool) (acc : List String) (sl : Nat),
        monitorLoop p fuel i lf jf acc sl = monitorLoop q fuel i lf jf acc sl := by
  induction fuel with
  | zero => intro p q hs hst i lf jf acc sl; simp [monitorLoop]
  | succ n ih =>
    intro p q hs hst i lf jf acc sl
    rw [monitorLoop, monitorLoop, hs, statusFinished_congr (hst i)]
    by_cases hc : ((lf || (streamPass (q.streams i)).lastLog.isSome) || jf) = true
    · rw [if_pos hc, if_pos hc]
    · rw [if_neg hc, if_neg hc]
      exact ih p q hs hst (i + 1) _ _ _ _

/-! ### Claim C3 -/

/-- Claim C3: for every sequence of lines received on the log stream, the
monitor prints the data field of exactly those lines that are structured
events whose data field does not begin with the Job-started keepalive
marker; it never prints a marker-carrying line and never prints
non-structured lines (the printed output is log data from event lines
only). -/
theorem stream_pass_prints_exactly (lines : List StreamLine) :
    (streamPass lines).printed = lines.filterMap specPrintedLine
    ∧ ∀ s ∈ (streamPass lines).printed,
        strStartsWith s jobStartedMarker = false ∧ StreamLine.event s ∈ lines := by
  have h1 : (streamPass lines).printed = lines.filterMap specPrintedLine := by
    rw [streamPass, foldl_passStep_printed]
    simp
  refine ⟨h1, ?_⟩
  intro s hs
  rw [h1] at hs
  obtain ⟨l, hl, hsp⟩ := List.mem_filterMap.mp hs
  cases l with
  | event d =>
    by_cases hd : strStartsWith d jobStartedMarker = true
    · simp [specPrintedLine, hd] at hsp
    · simp only [Bool.not_eq_true] at hd
      simp [specPrintedLine, hd] at hsp
      subst hsp
      exact ⟨hd, hl⟩
  | raw t => simp [specPrintedLine] at hsp

/-- Witness for C3 at a concrete stream: a blank line, the Job-started
marker and one real line come in; exactly the real line is printed. -/
theorem stream_pass_prints_exactly_witness :
    (streamPass [.raw "", .event "===== Job started", .event "hello"]).printed = ["hello"]
    ∧ strStartsWith "hello" jobStartedMarker = false := by
  refine ⟨(stream_pass_prints_exactly _).1.trans (by decide), ?_⟩
  exact ((stream_pass_prints_exactly
    [.raw "", .event "===== Job started", .event "hello"]).2 "hello" (by decide)).1

/-! ### Claim C1 -/

/-- Claim C1 counterexample: the stub of the claim itself, a platform whose
status is the terminal stage ERROR with error field OOM and whose stream
carries only the Job-started marker and a blank line.  The monitor stops
after two passes having printed nothing, and the process exit status is 0:
no failure message is printed and the exit status is not non-zero, contrary
to the claim. -/
theorem run_monitor_error_exit_code_zero :
    runMonitor oomPlatform 3 = some ⟨[], 2, 1, 0⟩
    ∧ (runMonitor oomPlatform 3).map MonitorResult.exitCode = some 0 := by
  exact ⟨by decide, by decide⟩

/-- Claim C1 (amended): whenever the foreground monitor loop of
RunCommand.run terminates, the process exits with status 0 regardless of
the final job status, and every printed line is log data coming from some
stream pass, so no failure message is ever printed; moreover the outcome
depends only on the streams and the status stages, never on the
platform-reported error field.  (When the final status is completed the
exit-0, no-failure-text part of the original claim therefore holds.) -/
theorem run_monitor_exit_behavior :
    (∀ (p : Platform) (fuel : Nat) (r : MonitorResult),
        runMonitor p fuel = some r →
        r.exitCode = 0 ∧ ∀ s ∈ r.printed, ∃ k, s ∈ (streamPass (p.streams k)).printed)
    ∧ (∀ (p q : Platform) (fuel : Nat), p.streams = q.streams →
        (∀ i, stageOf (p.statuses i) = stageOf (q.statuses i)) →
        runMonitor p fuel = runMonitor q fuel) := by
  constructor
  · intro p fuel r h
    obtain ⟨h0, hmem⟩ := monitorLoop_exit fuel p 0 false false [] 0 r h
    refine ⟨h0, fun s hs => ?_⟩
    rcases hmem s hs with h1 | h2
    · simp at h1
    · exact h2
  · intro p q fuel hs hst
    exact monitorLoop_congr fuel p q hs hst 0 false false [] 0

/-- Witness for C1 at the completed-job stub: the monitor terminates with
exit status 0, the theorem applied to this run confirming the exit code. -/
theorem run_monitor_exit_behavior_witness :
    runMonitor completedPlatform 2 = some ⟨[], 2, 1, 0⟩
    ∧ (⟨[], 2, 1, 0⟩ : MonitorResult).exitCode = 0 := by
  exact ⟨by decide, (run_monitor_exit_behavior.1 completedPlatform 2 _ (by decide)).1⟩

/-! ### Claim C2 -/

/-- Claim C2 counterexample: against a platform whose first stream pass is
empty and whose status is already the terminal stage COMPLETED, the monitor
does not stop at the terminal status: it sleeps, performs a second stream
pass (two passes in total) and prints the line that pass carries, contrary
to the claim that a terminal stage stops the looping. -/
theorem run_monitor_terminal_status_extra_pass :
    runMonitor lateLogPlatform 3 = some ⟨["hello"], 2, 1, 0⟩
    ∧ ¬((⟨["hello"], 2, 1, 0⟩ : MonitorResult).passes = 1) := by
  exact ⟨by decide, by decide⟩

/-- Claim C2 (amended): from a loop state with both flags clear, (1) a
stream pass that printed at least one real line ends the loop right after
that pass, with no status query and no further sleep; (2) after a pass
that printed nothing, when the queried stage is active (RUNNING or
UPDATING; a response without a status key behaves the same) the monitor
sleeps one time unit and reopens the stream at the next pass with both
flags still clear; (3) after a pass that printed nothing, when the queried
stage is terminal the monitor marks the job finished, sleeps one time unit,
performs exactly one more stream pass, printing whatever real lines that
pass carries, and only then stops. -/
theorem run_monitor_polling_behavior :
    (∀ (p : Platform) (fuel i sl : Nat) (acc : List String),
        (streamPass (p.streams i)).printed ≠ [] →
        monitorLoop p (fuel + 1) i false false acc sl =
          some ⟨acc ++ (streamPass (p.streams i)).printed, i + 1, sl, 0⟩)
    ∧ (∀ (p : Platform) (fuel i sl : Nat) (acc : List String),
        (streamPass (p.streams i)).printed = [] →
        statusFinished (p.statuses i) = false →
        monitorLoop p (fuel + 1) i false false acc sl =
          monitorLoop p fuel (i + 1) false false acc (sl + 1))
    ∧ (∀ (p : Platform) (fuel i sl : Nat) (acc : List String),
        (streamPass (p.streams i)).printed = [] →
        statusFinished (p.statuses i) = true →
        monitorLoop p (fuel + 2) i false false acc sl =
          some ⟨acc ++ (streamPass (p.streams (i + 1))).printed, i + 2, sl + 1, 0⟩) := by
  refine ⟨?_, ?_, ?_⟩
  · intro p fuel i sl acc h
    have hsome : (streamPass (p.streams i)).lastLog.isSome = true := by
      rw [Option.isSome_iff_ne_none]
      intro hn
      exact h ((streamPass_lastLog_none_iff _).mp hn)
    rw [monitorLoop]
    simp [hsome]
  · intro p fuel i sl acc h hstat
    have hnone := (streamPass_lastLog_none_iff (p.streams i)).mpr h
    rw [monitorLoop]
    simp [hnone, hstat, h]
  · intro p fuel i sl acc h hstat
    have hnone := (streamPass_lastLog_none_iff (p.streams i)).mpr h
    rw [monitorLoop]
    simp only [hnone, Option.isSome_none, Bool.or_false, Bool.false_or, h,
      List.append_nil, hstat, Bool.false_eq_true, if_false]
    rw [monitorLoop]
    simp [Bool.or_true]

/-- Witness for C2: the three behaviors of the theorem at concrete
platforms — a first pass with a real line ends the loop at once; an empty
pass with stage RUNNING sleeps and reopens; an empty pass with a terminal
stage gets exactly one more pass, whose line is printed. -/
theorem run_monitor_polling_behavior_witness :
    monitorLoop ⟨fun _ => [.event "x"], fun _ => .withStatus "RUNNING" none⟩ 1 0 false false [] 0 =
      some ⟨["x"], 1, 0, 0⟩
    ∧ monitorLoop runningPlatform 1 0 false false [] 0 =
        monitorLoop runningPlatform 0 1 false false [] 1
    ∧ monitorLoop lateLogPlatform 2 0 false false [] 0 = some ⟨["hello"], 2, 1, 0⟩ := by
  refine ⟨?_, ?_, ?_⟩
  · exact (run_monitor_polling_behavior.1
      ⟨fun _ => [.event "x"], fun _ => .withStatus "RUNNING" none⟩ 0 0 0 [] (by decide)).trans
      (by decide)
  · exact run_monitor_polling_behavior.2.1 runningPlatform 0 0 0 [] (by decide) (by decide)
  · exact (run_monitor_polling_behavior.2.2 lateLogPlatform 0 0 0 [] (by decide)
      (by decide)).trans (by decide)

/-! ### Claim C7 -/

/-- Claim C7: with no local project configuration file, a nonempty
identifier containing a slash resolves to itself, and a nonempty identifier
without a slash resolves to the caller name, a slash and the identifier;
this holds both for _determine_repository of uv.py and for the init
resolution step shared by scripts.py and uv.py.  (An empty string is not an
identifier: Python truthiness sends it to the ephemeral branch.) -/
theorem repo_resolution (repoArg username ephemeralName : String)
    (h : repoArg ≠ "") :
    (strContains repoArg "/" = true →
      determine_repository none (some repoArg) username ephemeralName = repoArg
      ∧ resolveRepoArg repoArg username = repoArg)
    ∧ (strContains repoArg "/" = false →
      determine_repository none (some repoArg) username ephemeralName =
        username ++ "/" ++ repoArg
      ∧ resolveRepoArg repoArg username = username ++ "/" ++ repoArg) := by
  constructor
  · intro hs
    have : resolveRepoArg repoArg username = repoArg := by simp [resolveRepoArg, hs]
    exact ⟨by simp [determine_repository, h, this], this⟩
  · intro hs
    have : resolveRepoArg repoArg username = username ++ "/" ++ repoArg := by
      simp [resolveRepoArg, hs]
    exact ⟨by simp [determine_repository, h, this], this⟩

/-- Witness for C7: both resolution shapes at concrete identifiers. -/
theorem repo_resolution_witness :
    determine_repository none (some "me/proj") "user" "eph" = "me/proj"
    ∧ determine_repository none (some "proj") "user" "eph" = "user/proj" := by
  exact ⟨((repo_resolution "me/proj" "user" "eph" (by decide)).1 (by decide)).1,
    ((repo_resolution "proj" "user" "eph" (by decide)).2 (by decide)).1⟩

/-! ### Claim C8 -/

/-- Claim C8 counterexample: the dispatcher of cli.py registers only the ps
and run subcommands, so an invocation of the uv or the scripts subcommand is
not dispatched to a handler: it is rejected at argument parsing, contrary to
the claim that uv and scripts are recognized and dispatched. -/
theorem dispatcher_uv_scripts_not_registered :
    dispatch (some "uv") = DispatchOutcome.parserRejected
    ∧ dispatch (some "scripts") = DispatchOutcome.parserRejected
    ∧ dispatch (some "uv") ≠ DispatchOutcome.handled "uv"
    ∧ registeredSubcommands.contains "uv" = false
    ∧ registeredSubcommands.contains "scripts" = false := by
  exact ⟨by decide, by decide, by decide, by decide, by decide⟩

/-- Claim C8 (amended): the dispatcher recognizes exactly the subcommands
ps and run, dispatching each to the run entry point of its handler; the
scripts and uv handlers exist in the code base but are never registered.  A
missing subcommand prints the usage text and exits with status exactly 1;
any unregistered token is rejected by the argument parsing library before
the dispatcher runs a handler. -/
theorem dispatcher_behavior :
    dispatch (some "run") = DispatchOutcome.handled "run"
    ∧ dispatch (some "ps") = DispatchOutcome.handled "ps"
    ∧ dispatch none = DispatchOutcome.usageExit 1
    ∧ ∀ c, registeredSubcommands.contains c = false →
        dispatch (some c) = DispatchOutcome.parserRejected := by
  refine ⟨by decide, by decide, by decide, ?_⟩
  intro c hc
  have hm : c ∉ registeredSubcommands := by simpa using hc
  simp [dispatch, hm]

/-- Witness for C8: the rejection branch of the theorem at the uv token. -/
theorem dispatcher_behavior_witness :
    dispatch (some "uv") = DispatchOutcome.parserRejected :=
  dispatcher_behavior.2.2.2 "uv" (by decide)



/-! ### Claim C9 -/

/-- Splitting a character list at its first occurrence of the equals sign:
the part before it is free of the character and the three pieces rebuild the
list. -/
theorem eqSplit_char {l : List Char} (h : '=' ∈ l) :
    l.takeWhile (fun c => c ≠ '=') ++ '=' :: (l.dropWhile (fun c => c ≠ '=')).tail = l
    ∧ '=' ∉ l.takeWhile (fun c => c ≠ '=') := by
  induction l with
  | nil => simp at h
  | cons a t ih =>
    by_cases ha : a = '='
    · subst ha
      simp [List.takeWhile_cons, List.dropWhile_cons]
    · have ht : '=' ∈ t := by
        rcases List.mem_cons.mp h with h1 | h1
        · exact absurd h1.symm ha
        · exact h1
      obtain ⟨ih1, ih2⟩ := ih ht
      have hb : decide (a ≠ '=') = true := by simp [ha]
      refine ⟨?_, ?_⟩
      · rw [List.takeWhile_cons, List.dropWhile_cons, hb, if_pos rfl, if_pos rfl,
          List.cons_append, ih1]
      · rw [List.takeWhile_cons, hb, if_pos rfl]
        intro hmem
        rcases List.mem_cons.mp hmem with h1 | h2
        · exact ha h1.symm
        · exact ih2 h2

/-- Claim C9: construction of the run command environment succeeds exactly
when every repeated --env argument contains an equals sign, and on success
each argument is split at its first equals sign: the key is the
equals-free part before it and the value is the entire remainder, which may
itself contain further equals signs.  An argument without an equals sign
makes the construction fail (the unguarded index raises), modelled as
none. -/
theorem env_construction_spec (xs : List String) :
    ((buildEnvironment xs).isSome = true ↔ ∀ x ∈ xs, '=' ∈ x.data)
    ∧ ∀ ps, buildEnvironment xs = some ps →
        List.Forall₂ (fun (x : String) (p : String × String) =>
          p.1.data ++ '=' :: p.2.data = x.data ∧ '=' ∉ p.1.data) xs ps := by
  induction xs with
  | nil =>
    refine ⟨by simp [buildEnvironment], ?_⟩
    intro ps hps
    obtain rfl : ([] : List (String × String)) = ps := Option.some.inj hps
    exact List.Forall₂.nil
  | cons x xs ih =>
    by_cases hx : '=' ∈ x.data
    · have hc : x.data.contains '=' = true := by simpa using hx
      have hsplit : splitFirstEq x =
          some ((x.data.takeWhile (fun c => c ≠ '=')).asString,
            ((x.data.dropWhile (fun c => c ≠ '=')).tail).asString) := by
        rw [splitFirstEq, if_pos hc]
      constructor
      · rw [buildEnvironment, hsplit]
        simp only [Option.some_bind]
        constructor
        · intro hs y hy
          rcases List.mem_cons.mp hy with rfl | hmem
          · exact hx
          · have hbs : (buildEnvironment xs).isSome = true := by
              cases hbe : buildEnvironment xs with
              | none => rw [hbe] at hs; simp at hs
              | some e => simp
            exact (ih.1.mp hbs) y hmem
        · intro hall
          have hbs : (buildEnvironment xs).isSome = true :=
            ih.1.mpr (fun y hy => hall y (List.mem_cons_of_mem x hy))
          obtain ⟨e, he⟩ := Option.isSome_iff_exists.mp hbs
          rw [he]
          simp
      · intro ps hps
        rw [buildEnvironment, hsplit] at hps
        simp only [Option.some_bind] at hps
        obtain ⟨e, he, rfl⟩ := Option.map_eq_some'.mp hps
        refine List.Forall₂.cons ?_ (ih.2 e he)
        obtain ⟨h1, h2⟩ := eqSplit_char hx
        exact ⟨by simpa [asString_data] using h1, by simpa [asString_data] using h2⟩
    · have hc : x.data.contains '=' = false := by simpa using hx
      have hsplit : splitFirstEq x = none := by
        rw [splitFirstEq, if_neg]
        simpa using hx
      constructor
      · rw [buildEnvironment, hsplit]
        simp only [Option.none_bind, Option.isSome_none]
        constructor
        · intro hfalse; simp at hfalse
        · intro hall
          exact absurd (hall x (List.mem_cons_self x xs)) hx
      · intro ps hps
        rw [buildEnvironment, hsplit] at hps
        simp at hps

/-- Witness for C9: two concrete --env arguments, the second containing a
second equals sign that stays inside the value; and one argument without an
equals sign makes the construction fail. -/
theorem env_construction_spec_witness :
    List.Forall₂ (fun (x : String) (p : String × String) =>
        p.1.data ++ '=' :: p.2.data = x.data ∧ '=' ∉ p.1.data)
      ["FOO=1", "BAR=a=b"] [("FOO", "1"), ("BAR", "a=b")]
    ∧ buildEnvironment ["FOO"] = none := by
  exact ⟨(env_construction_spec ["FOO=1", "BAR=a=b"]).2
    [("FOO", "1"), ("BAR", "a=b")] (by decide), by decide⟩

/-! ### Claim C10 -/

/-- Claim C10: reading the last-used-repository pointer right after saving
it returns the saved identifier when that identifier has no surrounding
whitespace; in general the read returns the most recently saved text
stripped, and each save fully overwrites the previous pointer, so at most
one identifier is ever stored. -/
theorem last_repo_roundtrip (store : Option String) (repoId : String) :
    (pyStrip repoId = repoId →
      get_last_repo (save_last_repo store repoId) = some repoId)
    ∧ get_last_repo (save_last_repo store repoId) = some (pyStrip repoId)
    ∧ ∀ r2, save_last_repo (save_last_repo store repoId) r2 = save_last_repo store r2 := by
  refine ⟨?_, ?_, ?_⟩
  · intro h
    simp [get_last_repo, save_last_repo, h]
  · simp [get_last_repo, save_last_repo]
  · intro r2
    simp [save_last_repo]

/-- Witness for C10 at a concrete identifier with no surrounding
whitespace. -/
theorem last_repo_roundtrip_witness :
    get_last_repo (save_last_repo none "owner/repo") = some "owner/repo" :=
  (last_repo_roundtrip none "owner/repo").1 (by decide)

/-! ### Claim C4 -/

/-- Lines before the dependencies header leave the scanner untouched. -/
theorem extractDepsGo_skip (pre rest : List String)
    (h : ∀ l ∈ pre, strContains l "dependencies = [" = false) :
    extractDepsGo (pre ++ rest) false = extractDepsGo rest false := by
  induction pre with
  | nil => rfl
  | cons l pre ih =>
    have hl := h l (List.mem_cons_self l pre)
    rw [List.cons_append, extractDepsGo, if_neg (by simp [hl]), if_neg (by simp)]
    exact ih (fun x hx => h x (List.mem_cons_of_mem l hx))

/-- With the scanner on, well-formed dependency lines are collected in order
until the closing-bracket line stops everything. -/
theorem extractDepsGo_collect (depLines pkgs : List String) (close : String)
    (post : List String)
    (hf : List.Forall₂ (fun l p => strContains l "dependencies = [" = false
      ∧ strContains l "]" = false ∧ firstQuoted l.data = some (String.data p)) depLines pkgs)
    (hc1 : strContains close "dependencies = [" = false)
    (hc2 : strContains close "]" = true) :
    extractDepsGo (depLines ++ close :: post) true = pkgs := by
  induction hf with
  | nil =>
    rw [List.nil_append, extractDepsGo, if_neg (by simp [hc1]), if_pos rfl, if_pos hc2]
  | cons h1 _ ih =>
    obtain ⟨ha1, ha2, ha3⟩ := h1
    rw [List.cons_append, extractDepsGo, if_neg (by simp [ha1]), if_pos rfl,
      if_neg (by simp [ha2]), ha3, ih]
    rfl

/-- With no dependencies header anywhere, nothing is collected. -/
theorem extractDepsGo_absent (lines : List String)
    (h : ∀ l ∈ lines, strContains l "dependencies = [" = false) :
    extractDepsGo lines false = [] := by
  induction lines with
  | nil => rfl
  | cons l ls ih =>
    have hl := h l (List.mem_cons_self l ls)
    rw [extractDepsGo, if_neg (by simp [hl]), if_neg (by simp)]
    exact ih (fun x hx => h x (List.mem_cons_of_mem l hx))

/-- Claim C4: for every script content whose lines form a well-formed
dependencies block — a header line containing the text dependencies = [,
then lines each holding one double-quoted package string (and no closing
bracket), then a closing-bracket line — the extractor returns exactly the
quoted strings of the block, in order; and for every script content none of
whose lines mentions the header text, it returns the empty list.  The
extractor is a total function, so it never fails on any input string. -/
theorem extract_dependencies_correct :
    (∀ (script header close : String) (pre depLines post pkgs : List String),
      pySplit script '\n' = pre ++ header :: (depLines ++ close :: post) →
      (∀ l ∈ pre, strContains l "dependencies = [" = false) →
      strContains header "dependencies = [" = true →
      List.Forall₂ (fun l p => strContains l "dependencies = [" = false
        ∧ strContains l "]" = false ∧ firstQuoted l.data = some (String.data p)) depLines pkgs →
      strContains close "dependencies = [" = false →
      strContains close "]" = true →
      extract_dependencies script = pkgs)
    ∧ (∀ script : String,
      (∀ l ∈ pySplit script '\n', strContains l "dependencies = [" = false) →
      extract_dependencies script = []) := by
  constructor
  · intro script header close pre depLines post pkgs hsplit hpre hheader hf hc1 hc2
    rw [extract_dependencies, hsplit, extractDepsGo_skip pre _ hpre, extractDepsGo,
      if_pos hheader]
    exact extractDepsGo_collect depLines pkgs close post hf hc1 hc2
  · intro script hall
    rw [extract_dependencies]
    exact extractDepsGo_absent _ hall

/-- Witness for C4 at a concrete script with a two-entry dependency block,
and a script without a block. -/
theorem extract_dependencies_correct_witness :
    extract_dependencies
        "# /// script\n# dependencies = [\n#     \"datasets\",\n#     \"tqdm\",\n# ]\nprint(1)" =
      ["datasets", "tqdm"]
    ∧ extract_dependencies "print(1)" = [] := by
  refine ⟨?_, ?_⟩
  · exact extract_dependencies_correct.1
      "# /// script\n# dependencies = [\n#     \"datasets\",\n#     \"tqdm\",\n# ]\nprint(1)"
      "# dependencies = [" "# ]" ["# /// script"]
      ["#     \"datasets\",", "#     \"tqdm\","] ["print(1)"] ["datasets", "tqdm"]
      (by decide) (by decide) (by decide)
      (List.Forall₂.cons (by decide) (List.Forall₂.cons (by decide) List.Forall₂.nil))
      (by decide) (by decide)
  · exact extract_dependencies_correct.2 "print(1)" (by decide)

/-! ### Claims C5 and C6 : the marker-delimited README table update -/

/-- The row token is a prefix of the full table row for the same script. -/
theorem rowMarker_prefix_scriptRow (n d rn : String) :
    (rowMarker n).data <+: (scriptRow n d rn).data := by
  have h1 : ("](./blob/main/" : String).data = ']' :: ("(./blob/main/" : String).data := rfl
  simp only [rowMarker, scriptRow, String.data_append, List.append_assoc, h1]
  refine (List.prefix_append_right_inj _).mpr ?_
  refine (List.prefix_append_right_inj _).mpr ?_
  exact ⟨_, rfl⟩

/-- The regenerated template always carries the row token of its script. -/
theorem create_readme_contains_row (r n c : String) :
    strContains (create_readme r n c) (rowMarker n) = true := by
  apply strContains_of_infix
  refine (rowMarker_prefix_scriptRow n ((extract_description c).getD "UV script")
    ((pySplit r '/').getLastD "")).isInfix.trans ?_
  simp only [create_readme, String.data_append]
  exact ⟨_, _, rfl⟩

/-- A document already carrying the row token is returned unchanged. -/
theorem update_readme_unchanged (r n c e : String)
    (h : strContains e (rowMarker n) = true) :
    update_readme_with_script r n c e = e := by
  simp only [update_readme_with_script]
  rw [if_pos h]

/-- When the row token is absent, the update result always carries it:
both the insertion branch and the regeneration branch add the row. -/
theorem update_result_contains (r n c e : String)
    (h : strContains e (rowMarker n) = false) :
    strContains (update_readme_with_script r n c e) (rowMarker n) = true := by
  simp only [update_readme_with_script]
  rw [if_neg (by simp [h])]
  cases hs : charsFind e.data startMarker.data with
  | none =>
    cases he : charsFind e.data endMarker.data with
    | none => exact create_readme_contains_row r n c
    | some k => exact create_readme_contains_row r n c
  | some s0 =>
    cases he : charsFind e.data endMarker.data with
    | none => exact create_readme_contains_row r n c
    | some k =>
      apply strContains_of_infix
      refine (rowMarker_prefix_scriptRow n ((extract_description c).getD "UV script")
        ((pySplit r '/').getLastD "")).isInfix.trans ?_
      simp only [String.data_append]
      exact ⟨_, _, rfl⟩

/-- A character absent from a list has no last occurrence in it. -/
theorem lastIndexOf_eq_none {l : List Char} {c : Char} (h : c ∉ l) :
    lastIndexOf l c = none := by
  induction l with
  | nil => rfl
  | cons a t ih =>
    have ha : ¬(a = c) := fun hh => h (hh ▸ List.mem_cons_self a t)
    rw [lastIndexOf, ih (fun hm => h (List.mem_cons_of_mem a hm))]
    simp [ha]

/-- The last occurrence of a character standing right after a block that may
contain it and right before a block that does not. -/
theorem lastIndexOf_append_cons {A L : List Char} {c : Char} (h : c ∉ L) :
    lastIndexOf (A ++ c :: L) c = some A.length := by
  induction A with
  | nil =>
    rw [List.nil_append, lastIndexOf, lastIndexOf_eq_none h]
    simp
  | cons a A ih =>
    rw [List.cons_append, lastIndexOf, ih]
    simp

/-- Claim C5: the marker-delimited README table update is idempotent —
applying it twice with the same filename equals applying it once, on every
document; a document already carrying the row token of the filename is
returned unchanged; and on a marker-delimited document not yet carrying the
token, whose end marker first occurs right after a newline-free line
remainder L, exactly one new row for the filename is inserted immediately
before the end-marker line, the rest of the document being preserved. -/
theorem update_readme_idempotent_at_most_once :
    (∀ r n c e : String,
      update_readme_with_script r n c (update_readme_with_script r n c e) =
        update_readme_with_script r n c e)
    ∧ (∀ r n c e : String, strContains e (rowMarker n) = true →
        update_readme_with_script r n c e = e)
    ∧ (∀ (r n c e : String) (A L B : List Char),
        e.data = A ++ '\n' :: (L ++ endMarker.data ++ B) →
        '\n' ∉ L →
        strContains e (rowMarker n) = false →
        (charsFind e.data startMarker.data).isSome = true →
        charsFind e.data endMarker.data = some (A.length + 1 + L.length) →
        (update_readme_with_script r n c e).data =
          A ++ '\n' :: ((scriptRow n ((extract_description c).getD "UV script")
            ((pySplit r '/').getLastD "")).data ++ '\n' :: (L ++ endMarker.data ++ B))) := by
  refine ⟨?_, ?_, ?_⟩
  · intro r n c e
    by_cases h : strContains e (rowMarker n) = true
    · rw [update_readme_unchanged r n c e h, update_readme_unchanged r n c e h]
    · have h' : strContains e (rowMarker n) = false := by simpa using h
      exact update_readme_unchanged r n c _ (update_result_contains r n c e h')
  · intro r n c e h
    exact update_readme_unchanged r n c e h
  · intro r n c e A L B hdata hL hrow hstart hend
    obtain ⟨s0, hs0⟩ := Option.isSome_iff_exists.mp hstart
    have htake : e.data.take (A.length + 1 + L.length) = A ++ '\n' :: L := by
      rw [hdata, show A ++ '\n' :: (L ++ endMarker.data ++ B) =
        (A ++ '\n' :: L) ++ (endMarker.data ++ B) by simp]
      exact List.take_left' (by simp; omega)
    have hrfind : charsRFindBefore e.data '\n' (A.length + 1 + L.length) = some A.length := by
      rw [charsRFindBefore, htake]
      exact lastIndexOf_append_cons hL
    have hidx : pyIdxNat e.data.length ((A.length : Nat) : Int) = A.length := by
      simp [pyIdxNat]
    have hTake2 : pyTake e.data ((A.length : Nat) : Int) = A := by
      rw [pyTake, hidx, hdata]
      exact List.take_left' rfl
    have hDrop2 : pyDrop e.data ((A.length : Nat) : Int) = '\n' :: (L ++ endMarker.data ++ B) := by
      rw [pyDrop, hidx, hdata]
      exact List.drop_left' rfl
    simp only [update_readme_with_script]
    rw [if_neg (by simp [hrow])]
    simp only [hs0, hend, hrfind, hTake2, hDrop2]
    simp [String.data_append, asString_data, List.append_assoc,
      show ("\n" : String).data = ['\n'] from rfl]

/-- Witness for C5: a concrete marker-delimited document receives exactly
one new row before the end-marker line, and a document already carrying the
row token is returned unchanged. -/
theorem update_readme_idempotent_at_most_once_witness :
    update_readme_with_script "u/r" "s.py" "" "| [s.py] already here" = "| [s.py] already here"
    ∧ (update_readme_with_script "u/r" "s.py" ""
        ("x\n" ++ startMarker ++ "\n|-|\n" ++ endMarker ++ "\ny")).data =
      ("x\n" ++ startMarker ++ "\n|-|").data ++ '\n' ::
        ((scriptRow "s.py" ((extract_description "").getD "UV script")
          ((pySplit "u/r" '/').getLastD "")).data ++ '\n' ::
          (([] : List Char) ++ endMarker.data ++ ("\ny" : String).data)) := by
  refine ⟨?_, ?_⟩
  · exact update_readme_idempotent_at_most_once.2.1 "u/r" "s.py" "" _ (by decide)
  · exact update_readme_idempotent_at_most_once.2.2 "u/r" "s.py" ""
      ("x\n" ++ startMarker ++ "\n|-|\n" ++ endMarker ++ "\ny")
      ("x\n" ++ startMarker ++ "\n|-|").data [] ("\ny" : String).data
      (by decide) (by decide) (by decide) (by decide) (by decide)

/-- Claim C6 counterexample: a document with no markers at all that happens
to contain the row token of the script is returned unchanged by the update
instead of being regenerated from the template, because the presence check
runs before the marker check.  So the claim fails as stated for such
documents. -/
theorem update_readme_row_present_no_regeneration :
    update_readme_with_script "user/repo" "foo.py" "" "| [foo.py] leftover" = "| [foo.py] leftover"
    ∧ "| [foo.py] leftover" ≠ create_readme "user/repo" "foo.py" ""
    ∧ charsFind ("| [foo.py] leftover" : String).data startMarker.data = none := by
  refine ⟨?_, ?_, ?_⟩
  · exact update_readme_unchanged "user/repo" "foo.py" "" _ (by decide)
  · decide
  · decide

/-- Claim C6 (amended): for every existing document in which the literal
start marker or the literal end marker is absent and which does not already
contain the row token of the script, the update does not raise: it returns
the freshly regenerated full template document, which carries the new
script row, discarding the prior content. -/
theorem update_readme_missing_markers_regenerates
    (repoId scriptName scriptContent existing : String)
    (hrow : strContains existing (rowMarker scriptName) = false)
    (hmiss : charsFind existing.data startMarker.data = none
      ∨ charsFind existing.data endMarker.data = none) :
    update_readme_with_script repoId scriptName scriptContent existing =
      create_readme repoId scriptName scriptContent
    ∧ strContains (create_readme repoId scriptName scriptContent)
        (rowMarker scriptName) = true := by
  refine ⟨?_, create_readme_contains_row repoId scriptName scriptContent⟩
  simp only [update_readme_with_script]
  rw [if_neg (by simp [hrow])]
  rcases hmiss with h | h
  · rw [h]
  · rw [h]
    cases hs : charsFind existing.data startMarker.data <;> rfl

/-- Witness for C6: a concrete hand-written document with no markers and no
row token is thrown away and regenerated. -/
theorem update_readme_missing_markers_regenerates_witness :
    update_readme_with_script "user/repo" "new.py" "" "# hand written notes" =
      create_readme "user/repo" "new.py" ""
    ∧ strContains (create_readme "user/repo" "new.py" "") (rowMarker "new.py") = true :=
  update_readme_missing_markers_regenerates "user/repo" "new.py" "" "# hand written notes"
    (by decide) (Or.inl (by decide))
